import Mathlib

/-!
Shallow embedding of `EmitFilesPatch` from
`src/apps/heft/src/plugins/TypeScriptPlugin/EmitFilesPatch.ts`.

The multiplexer intercepts the TypeScript compiler's internal `emitFiles`
entry point and fans each normal emit call out over a list of
`ICachedEmitModuleKind` variants.  Opaque runtime values (source files,
resolvers, transformer sets, function references, diagnostics) are modelled
as natural-number identifiers; the mutable statics `_patchedTs` and
`_baseEmitFiles` together with each compiler handle's `emitFiles` slot are
modelled as an explicit `World` record; thrown exceptions are modelled with
`Except` / an error-`Option` component of the result.
-/

/-- TypeScript `ModuleKind` values are members of a numeric enum. -/
abbrev ModuleKind := Nat

/-- `ICachedEmitModuleKind` (EmitFilesPatch.ts lines 14-31). -/
structure ICachedEmitModuleKind where
  moduleKind : ModuleKind
  outFolderPath : String
  cacheOutFolderPath : String
  isPrimary : Bool
deriving Repr, DecidableEq

/-- The slice of `TTypescript.CompilerOptions` that `EmitFilesPatch` reads or
overrides.  `residual` stands for every remaining tsconfig option, which the
object spread `{ ...tsconfig.options, ... }` copies unchanged. -/
structure CompilerOptions where
  outDir : Option String
  module : Option ModuleKind
  declaration : Option Bool
  declarationMap : Option Bool
  residual : Nat
deriving Repr, DecidableEq

/-- The slice of `TTypescript.EmitResult` the patch manipulates; `residual`
stands for the remaining fields (e.g. `sourceMaps`), which the object spread
`{ ...defaultModuleKindResult, emitSkipped }` copies unchanged. -/
structure EmitResult where
  emitSkipped : Bool
  diagnostics : List Nat
  emittedFiles : List String
  residual : Nat
deriving Repr, DecidableEq

/-- The emit host: `getCompilerOptions` is modelled by the value the accessor
returns; `residual` stands for the other host members, which the spread
`{ ...host, getCompilerOptions: () => compilerOptions }` copies unchanged. -/
structure EmitHost where
  getCompilerOptions : CompilerOptions
  residual : Nat
deriving Repr, DecidableEq

/-- The seven parameters of `ts.emitFiles` (lines 88-96).  Resolver,
target source file and transformer set are opaque identifiers; the three
optional boolean flags are modelled with `undefined` read as `false`. -/
structure EmitArgs where
  resolver : Nat
  host : EmitHost
  targetSourceFile : Option Nat
  emitTransformers : Nat
  emitOnlyDtsFiles : Bool
  onlyBuildInfo : Bool
  forceDtsEmit : Bool
deriving Repr, DecidableEq

/-- Exceptions observable out of the wrapped `emitFiles`:
`outDirNotAssigned` is the `InternalError` of line 119, and `thrown n` is an
arbitrary exception raised by the underlying base entry point. -/
inductive EmitError where
  | outDirNotAssigned : EmitError
  | thrown : Nat → EmitError
deriving Repr, DecidableEq

/-- Exceptions thrown by `install` / `uninstall`:
`alreadyInstalled` (line 47), `multiplePrimary` (line 65),
`notInstalled` (line 155), `wrongObject` (line 158). -/
inductive PatchError where
  | alreadyInstalled : PatchError
  | multiplePrimary : PatchError
  | notInstalled : PatchError
  | wrongObject : PatchError
deriving Repr, DecidableEq

/-- Lines 60-62: `useBuildCache ? cacheOutFolderPath : outFolderPath`. -/
def effectiveOutDir (useBuildCache : Bool) (k : ICachedEmitModuleKind) : String :=
  if useBuildCache then k.cacheOutFolderPath else k.outFolderPath

/-- Lines 63-83: the per-variant compiler options stored in
`compilerOptionsMap` — the base options with `outDir` rewritten, and for a
non-primary variant additionally `module`, `declaration`, `declarationMap`
overridden. -/
def deriveOptions (tsOptions : CompilerOptions) (useBuildCache : Bool)
    (k : ICachedEmitModuleKind) : CompilerOptions :=
  if k.isPrimary then
    { tsOptions with outDir := some (effectiveOutDir useBuildCache k) }
  else
    { tsOptions with
      outDir := some (effectiveOutDir useBuildCache k),
      module := some k.moduleKind,
      declaration := some false,
      declarationMap := some false }

/-- Lines 54-84: the validation/derivation loop of `install`.  It threads
`foundPrimary` and `defaultModuleKind`, throws
`'Multiple primary module emit kinds encountered.'` when a second primary is
encountered, and builds the per-variant options map (kept here as an ordered
association list, matching the loop's iteration order). -/
def installLoop (tsOptions : CompilerOptions) (useBuildCache : Bool) :
    List ICachedEmitModuleKind → Bool → Option ModuleKind →
      Except PatchError (Option ModuleKind × List (ICachedEmitModuleKind × CompilerOptions))
  | [], _, defaultModuleKind => Except.ok (defaultModuleKind, [])
  | k :: rest, foundPrimary, defaultModuleKind =>
    if k.isPrimary then
      if foundPrimary then Except.error PatchError.multiplePrimary
      else
        match installLoop tsOptions useBuildCache rest true (some k.moduleKind) with
        | Except.error e => Except.error e
        | Except.ok (dk, pairs) =>
          Except.ok (dk, (k, deriveOptions tsOptions useBuildCache k) :: pairs)
    else
      match installLoop tsOptions useBuildCache rest foundPrimary defaultModuleKind with
      | Except.error e => Except.error e
      | Except.ok (dk, pairs) =>
        Except.ok (dk, (k, deriveOptions tsOptions useBuildCache k) :: pairs)

/-- Number of variants in a list that carry the `isPrimary` flag. -/
def countPrimary (kinds : List ICachedEmitModuleKind) : Nat :=
  (kinds.filter (fun k => k.isPrimary)).length

/-- The ordered `(variant, derived options)` association that a successful
`installLoop` run produces. -/
def derivedPairs (tsOptions : CompilerOptions) (useBuildCache : Bool)
    (kinds : List ICachedEmitModuleKind) :
    List (ICachedEmitModuleKind × CompilerOptions) :=
  kinds.map (fun k => (k, deriveOptions tsOptions useBuildCache k))

/-- JS truthiness of the guard at line 118: `!compilerOptions.outDir` holds
when `outDir` is undefined or the empty string. -/
def outDirFalsy (o : CompilerOptions) : Bool :=
  match o.outDir with
  | none => true
  | some s => s == ""

/-- Lines 122-133: argument vector of one per-variant invocation of the base
entry point — same resolver, target file and flags, host spread with its
`getCompilerOptions` accessor substituted, and transformers re-derived via
`ts.getTransformers(compilerOptions, undefined, emitOnlyDtsFiles)`. -/
def variantArgs (getTransformers : CompilerOptions → Option Nat → Bool → Nat)
    (a : EmitArgs) (opts : CompilerOptions) : EmitArgs :=
  { a with
    host := { a.host with getCompilerOptions := opts },
    emitTransformers := getTransformers opts none a.emitOnlyDtsFiles }

/-- `changedFiles.add(targetSourceFile)` — JS `Set` insertion: appends when
absent, no-op when already present. -/
def setAdd (s : List Nat) (x : Nat) : List Nat :=
  if x ∈ s then s else s ++ [x]

/-- Lines 109-111: `if (targetSourceFile && changedFiles)
changedFiles.add(targetSourceFile)`. -/
def sinkAfter (targetSourceFile : Option Nat) (sink : Option (List Nat)) :
    Option (List Nat) :=
  match targetSourceFile, sink with
  | some f, some s => some (setAdd s f)
  | _, s => s

/-- Lines 113-140: the fan-out loop of the wrapped `emitFiles`.  Threads the
accumulated `emitSkipped` flag and `defaultModuleKindResult`; throws the
`outDir` `InternalError` before a variant whose derived options have a falsy
`outDir`; propagates any exception of the base entry point.  The second
component is the trace of argument vectors passed to the base entry point,
in invocation order. -/
def emitLoop (base : EmitArgs → Except EmitError EmitResult)
    (getTransformers : CompilerOptions → Option Nat → Bool → Nat) (a : EmitArgs)
    (defaultModuleKind : Option ModuleKind) :
    List (ICachedEmitModuleKind × CompilerOptions) → Bool → Option EmitResult →
      Except EmitError (Bool × Option EmitResult) × List EmitArgs
  | [], emitSkipped, defaultModuleKindResult =>
    (Except.ok (emitSkipped, defaultModuleKindResult), [])
  | (k, compilerOptions) :: rest, emitSkipped, defaultModuleKindResult =>
    if outDirFalsy compilerOptions then (Except.error EmitError.outDirNotAssigned, [])
    else
      let va := variantArgs getTransformers a compilerOptions
      match base va with
      | Except.error e => (Except.error e, [va])
      | Except.ok flavorResult =>
        let r := emitLoop base getTransformers a defaultModuleKind rest
          (emitSkipped || flavorResult.emitSkipped)
          (if some k.moduleKind = defaultModuleKind then some flavorResult
           else defaultModuleKindResult)
        (r.1, va :: r.2)

/-- Line 142 spreads `defaultModuleKindResult!`.  When no variant matched the
default module kind that value is `undefined` and the spread yields an object
carrying only `emitSkipped`; the missing fields are encoded by defaults here.
No emit call made under a validated variant list reaches this case. -/
def missingDefaultResult (emitSkipped : Bool) : EmitResult :=
  { emitSkipped := emitSkipped, diagnostics := [], emittedFiles := [], residual := 0 }

/-- Lines 88-146: the wrapped `ts.emitFiles` that `install` puts in place.
Returns the result (or thrown exception), the changed-files sink after the
call, and the trace of argument vectors passed to the base entry point. -/
def patchedEmitFiles (base : EmitArgs → Except EmitError EmitResult)
    (getTransformers : CompilerOptions → Option Nat → Bool → Nat)
    (pairs : List (ICachedEmitModuleKind × CompilerOptions))
    (defaultModuleKind : Option ModuleKind) (changedFiles : Option (List Nat))
    (a : EmitArgs) :
    Except EmitError EmitResult × Option (List Nat) × List EmitArgs :=
  if a.onlyBuildInfo || a.emitOnlyDtsFiles then
    (base a, changedFiles, [a])
  else
    let changedFiles' := sinkAfter a.targetSourceFile changedFiles
    match emitLoop base getTransformers a defaultModuleKind pairs false none with
    | (Except.error e, tr) => (Except.error e, changedFiles', tr)
    | (Except.ok (emitSkipped, defaultModuleKindResult), tr) =>
      (Except.ok
        (match defaultModuleKindResult with
         | some r => { r with emitSkipped := emitSkipped }
         | none => missingDefaultResult emitSkipped),
       changedFiles', tr)

/-- The mutable state touched by `install`/`uninstall`: each compiler
handle's current `emitFiles` slot, the statics `_patchedTs` and
`_baseEmitFiles` of `EmitFilesPatch` (lines 34-37), and an allocator for the
reference of a freshly created wrapper closure.  Compiler handles and
function references are opaque identifiers so that the source's `===`
comparisons are meaningful. -/
structure World where
  emitFilesOf : Nat → Nat
  patchedTs : Option Nat
  baseEmitFiles : Option Nat
  nextRef : Nat

/-- Lines 39-147: `EmitFilesPatch.install`, as a state transition.  Returns
the thrown error, if any, together with the post-call state: the
already-installed check, the assignment of `_patchedTs`/`_baseEmitFiles`,
the validation/derivation loop (which may throw with those statics already
assigned), and finally the replacement of `ts.emitFiles` by the freshly
allocated wrapper closure. -/
def install (w : World) (ts : Nat) (tsconfigOptions : CompilerOptions)
    (useBuildCache : Bool) (moduleKindsToEmit : List ICachedEmitModuleKind) :
    Option PatchError × World :=
  match w.patchedTs with
  | some _ => (some PatchError.alreadyInstalled, w)
  | none =>
    let w1 : World :=
      { w with patchedTs := some ts, baseEmitFiles := some (w.emitFilesOf ts) }
    match installLoop tsconfigOptions useBuildCache moduleKindsToEmit false none with
    | Except.error e => (some e, w1)
    | Except.ok _ =>
      (none,
       { w1 with
         emitFilesOf := fun h => if h = ts then w1.nextRef else w1.emitFilesOf h,
         nextRef := w1.nextRef + 1 })

/-- Lines 153-165: `EmitFilesPatch.uninstall`, as a state transition.  The
`baseEmitFiles = none` arm cannot be reached from any state produced by
`install` (the statics are assigned and cleared together); the source would
assign `undefined` there. -/
def uninstall (w : World) (ts : Nat) : Option PatchError × World :=
  match w.patchedTs with
  | none => (some PatchError.notInstalled, w)
  | some p =>
    if ts = p then
      match w.baseEmitFiles with
      | some b =>
        (none,
         { w with
           emitFilesOf := fun h => if h = ts then b else w.emitFilesOf h,
           patchedTs := none,
           baseEmitFiles := none })
      | none => (none, { w with patchedTs := none, baseEmitFiles := none })
    else (some PatchError.wrongObject, w)

/-- Lines 149-151: `EmitFilesPatch.isInstalled`. -/
def isInstalled (w : World) : Bool := w.patchedTs.isSome

/-- The value `defaultModuleKindResult` holds after the fan-out loop when the
base entry point succeeds on every variant: the result of the last variant
whose module kind equals the default module kind, if any (lines 136-138
folded over the list). -/
def lastRes (f : EmitArgs → EmitResult)
    (getTransformers : CompilerOptions → Option Nat → Bool → Nat) (a : EmitArgs)
    (defaultModuleKind : Option ModuleKind) :
    List (ICachedEmitModuleKind × CompilerOptions) → Option EmitResult → Option EmitResult
  | [], d => d
  | (k, o) :: rest, d =>
    lastRes f getTransformers a defaultModuleKind rest
      (if some k.moduleKind = defaultModuleKind then
        some (f (variantArgs getTransformers a o))
       else d)

/-- A concrete base tsconfig option set used for concrete evaluations. -/
def baseOptions : CompilerOptions :=
  { outDir := none, module := some 99, declaration := some true,
    declarationMap := some true, residual := 7 }

/-- A fresh world: one real `emitFiles` function (reference 0) on every
handle, no patch installed. -/
def w0 : World :=
  { emitFilesOf := fun _ => 0, patchedTs := none, baseEmitFiles := none, nextRef := 1 }

/-- A primary variant (CommonJS-style, module kind 1). -/
def primaryKind : ICachedEmitModuleKind :=
  { moduleKind := 1, outFolderPath := "lib", cacheOutFolderPath := "cache-lib",
    isPrimary := true }

/-- A secondary variant (ESM-style, module kind 2). -/
def secondaryKind : ICachedEmitModuleKind :=
  { moduleKind := 2, outFolderPath := "lib-esm", cacheOutFolderPath := "cache-esm",
    isPrimary := false }

/-- A secondary variant that duplicates the primary module kind and has
empty output paths. -/
def emptyPathKind : ICachedEmitModuleKind :=
  { moduleKind := 1, outFolderPath := "", cacheOutFolderPath := "", isPrimary := false }

/-- Variant list with a duplicated module convention and an empty output
path. -/
def dupAndEmpty : List ICachedEmitModuleKind := [primaryKind, emptyPathKind]

/-- A world in which `install` has completed on handle 0. -/
def w1 : World :=
  (install w0 0 baseOptions false [primaryKind, secondaryKind]).2

/-- A concrete transformer derivation. -/
def gt0 : CompilerOptions → Option Nat → Bool → Nat := fun _ _ _ => 0

/-- A concrete pure base entry point: reports `emitSkipped` exactly for the
module-kind-2 flavor, so the aggregated OR is observable. -/
def f0 : EmitArgs → EmitResult :=
  fun a =>
    { emitSkipped := a.host.getCompilerOptions.module == some 2,
      diagnostics := [5], emittedFiles := ["index.js"], residual := 3 }

/-- A concrete base entry point that always throws. -/
def baseThrow : EmitArgs → Except EmitError EmitResult :=
  fun _ => Except.error (EmitError.thrown 3)

/-- A concrete normal (non-pass-through) emit call with target file 10. -/
def a0 : EmitArgs :=
  { resolver := 0, host := { getCompilerOptions := baseOptions, residual := 4 },
    targetSourceFile := some 10, emitTransformers := 0,
    emitOnlyDtsFiles := false, onlyBuildInfo := false, forceDtsEmit := false }

/-- The same call with the build-info-only flag set. -/
def aPass : EmitArgs := { a0 with onlyBuildInfo := true }

theorem countPrimary_nil : countPrimary [] = 0 := rfl

theorem countPrimary_cons_true (k : ICachedEmitModuleKind)
    (rest : List ICachedEmitModuleKind) (hk : k.isPrimary = true) :
    countPrimary (k :: rest) = countPrimary rest + 1 := by
  simp [countPrimary, List.filter_cons, hk]

theorem countPrimary_cons_false (k : ICachedEmitModuleKind)
    (rest : List ICachedEmitModuleKind) (hk : k.isPrimary = false) :
    countPrimary (k :: rest) = countPrimary rest := by
  simp [countPrimary, List.filter_cons, hk]

theorem one_le_countPrimary_of_mem (l : List ICachedEmitModuleKind)
    (kp : ICachedEmitModuleKind) (hmem : kp ∈ l) (hkp : kp.isPrimary = true) :
    1 ≤ countPrimary l := by
  have h1 : kp ∈ l.filter (fun k => k.isPrimary) := List.mem_filter.mpr ⟨hmem, hkp⟩
  exact List.length_pos.mpr (List.ne_nil_of_mem h1)

theorem installLoop_no_primary (tsOptions : CompilerOptions) (ubc : Bool)
    (kinds : List ICachedEmitModuleKind) (h : countPrimary kinds = 0)
    (fp : Bool) (dk : Option ModuleKind) :
    installLoop tsOptions ubc kinds fp dk =
      Except.ok (dk, derivedPairs tsOptions ubc kinds) := by
  induction kinds generalizing fp dk with
  | nil => rfl
  | cons k rest ih =>
    cases hk : k.isPrimary with
    | true => rw [countPrimary_cons_true k rest hk] at h; omega
    | false =>
      rw [countPrimary_cons_false k rest hk] at h
      simp [installLoop, hk, ih h, derivedPairs]

theorem installLoop_one_primary (tsOptions : CompilerOptions) (ubc : Bool)
    (pre : List ICachedEmitModuleKind) (kp : ICachedEmitModuleKind)
    (post : List ICachedEmitModuleKind) (hkp : kp.isPrimary = true)
    (hpre : countPrimary pre = 0) (hpost : countPrimary post = 0)
    (dk : Option ModuleKind) :
    installLoop tsOptions ubc (pre ++ kp :: post) false dk =
      Except.ok (some kp.moduleKind, derivedPairs tsOptions ubc (pre ++ kp :: post)) := by
  induction pre generalizing dk with
  | nil =>
    simp [installLoop, hkp, installLoop_no_primary tsOptions ubc post hpost, derivedPairs]
  | cons k rest ih =>
    cases hk : k.isPrimary with
    | true => rw [countPrimary_cons_true k rest hk] at hpre; omega
    | false =>
      rw [countPrimary_cons_false k rest hk] at hpre
      simp [installLoop, hk, ih hpre, derivedPairs]

theorem installLoop_found_primary (tsOptions : CompilerOptions) (ubc : Bool)
    (kinds : List ICachedEmitModuleKind) (h : 1 ≤ countPrimary kinds)
    (dk : Option ModuleKind) :
    installLoop tsOptions ubc kinds true dk = Except.error PatchError.multiplePrimary := by
  induction kinds generalizing dk with
  | nil => simp [countPrimary] at h
  | cons k rest ih =>
    cases hk : k.isPrimary with
    | true => simp [installLoop, hk]
    | false =>
      rw [countPrimary_cons_false k rest hk] at h
      simp [installLoop, hk, ih h]

theorem installLoop_two_primary (tsOptions : CompilerOptions) (ubc : Bool)
    (kinds : List ICachedEmitModuleKind) (h : 2 ≤ countPrimary kinds)
    (dk : Option ModuleKind) :
    installLoop tsOptions ubc kinds false dk = Except.error PatchError.multiplePrimary := by
  induction kinds generalizing dk with
  | nil => simp [countPrimary] at h
  | cons k rest ih =>
    cases hk : k.isPrimary with
    | true =>
      rw [countPrimary_cons_true k rest hk] at h
      have hrest : 1 ≤ countPrimary rest := by omega
      simp [installLoop, hk, installLoop_found_primary tsOptions ubc rest hrest]
    | false =>
      rw [countPrimary_cons_false k rest hk] at h
      simp [installLoop, hk, ih h]

theorem exists_primary_of_countPrimary_one (kinds : List ICachedEmitModuleKind)
    (h : countPrimary kinds = 1) :
    ∃ kp, kp ∈ kinds ∧ kp.isPrimary = true := by
  have hne : kinds.filter (fun k => k.isPrimary) ≠ [] := by
    intro hnil
    rw [countPrimary, hnil] at h
    simp at h
  obtain ⟨kp, hkp⟩ := List.exists_mem_of_ne_nil _ hne
  exact ⟨kp, (List.mem_filter.mp hkp).1, by simpa using (List.mem_filter.mp hkp).2⟩

theorem exists_decomp_of_countPrimary_one (kinds : List ICachedEmitModuleKind)
    (kp : ICachedEmitModuleKind) (h1 : countPrimary kinds = 1)
    (hmem : kp ∈ kinds) (hkp : kp.isPrimary = true) :
    ∃ pre post, kinds = pre ++ kp :: post ∧ countPrimary pre = 0 ∧ countPrimary post = 0 := by
  induction kinds with
  | nil => cases hmem
  | cons k rest ih =>
    rcases List.mem_cons.mp hmem with heq | hmem'
    · subst heq
      refine ⟨[], rest, rfl, rfl, ?_⟩
      rw [countPrimary_cons_true kp rest hkp] at h1
      omega
    · cases hk : k.isPrimary with
      | true =>
        exfalso
        have hge := one_le_countPrimary_of_mem rest kp hmem' hkp
        rw [countPrimary_cons_true k rest hk] at h1
        omega
      | false =>
        rw [countPrimary_cons_false k rest hk] at h1
        obtain ⟨pre, post, heq, hp0, hp1⟩ := ih h1 hmem'
        exact ⟨k :: pre, post, by rw [heq]; rfl,
          by rw [countPrimary_cons_false k pre hk]; exact hp0, hp1⟩

theorem outDirFalsy_deriveOptions (tsOptions : CompilerOptions) (ubc : Bool)
    (k : ICachedEmitModuleKind) :
    outDirFalsy (deriveOptions tsOptions ubc k) = (effectiveOutDir ubc k == "") := by
  cases hk : k.isPrimary with
  | true => simp [deriveOptions, outDirFalsy, hk]
  | false => simp [deriveOptions, outDirFalsy, hk]

theorem emitLoop_total (f : EmitArgs → EmitResult)
    (gt : CompilerOptions → Option Nat → Bool → Nat) (a : EmitArgs)
    (dk : Option ModuleKind) (pairs : List (ICachedEmitModuleKind × CompilerOptions))
    (hout : ∀ p ∈ pairs, outDirFalsy p.2 = false) (acc : Bool) (dres : Option EmitResult) :
    emitLoop (fun x => Except.ok (f x)) gt a dk pairs acc dres =
      (Except.ok
        (acc || (pairs.map (fun p => (f (variantArgs gt a p.2)).emitSkipped)).any id,
         lastRes f gt a dk pairs dres),
       pairs.map (fun p => variantArgs gt a p.2)) := by
  induction pairs generalizing acc dres with
  | nil => simp [emitLoop, lastRes]
  | cons p rest ih =>
    obtain ⟨k, o⟩ := p
    have ho : outDirFalsy o = false := hout (k, o) (by simp)
    have hrest : ∀ q ∈ rest, outDirFalsy q.2 = false := fun q hq => hout q (by simp [hq])
    simp [emitLoop, ho, lastRes, ih hrest, Bool.or_assoc]

theorem lastRes_no_match (f : EmitArgs → EmitResult)
    (gt : CompilerOptions → Option Nat → Bool → Nat) (a : EmitArgs)
    (dk : Option ModuleKind) (pairs : List (ICachedEmitModuleKind × CompilerOptions))
    (h : ∀ p ∈ pairs, some p.1.moduleKind ≠ dk) (d : Option EmitResult) :
    lastRes f gt a dk pairs d = d := by
  induction pairs generalizing d with
  | nil => rfl
  | cons p rest ih =>
    obtain ⟨k, o⟩ := p
    have hk : some k.moduleKind ≠ dk := h (k, o) (by simp)
    rw [lastRes, if_neg hk]
    exact ih (fun q hq => h q (by simp [hq])) d

theorem lastRes_unique_match (f : EmitArgs → EmitResult)
    (gt : CompilerOptions → Option Nat → Bool → Nat) (a : EmitArgs)
    (kp : ICachedEmitModuleKind) (okp : CompilerOptions)
    (pre post : List (ICachedEmitModuleKind × CompilerOptions))
    (hpost : ∀ p ∈ post, some p.1.moduleKind ≠ some kp.moduleKind)
    (d : Option EmitResult) :
    lastRes f gt a (some kp.moduleKind) (pre ++ (kp, okp) :: post) d =
      some (f (variantArgs gt a okp)) := by
  induction pre generalizing d with
  | nil =>
    rw [List.nil_append, lastRes, if_pos rfl]
    exact lastRes_no_match f gt a (some kp.moduleKind) post hpost _
  | cons p rest ih =>
    obtain ⟨k, o⟩ := p
    rw [List.cons_append, lastRes]
    exact ih _

theorem emitLoop_outDir_err (f : EmitArgs → EmitResult)
    (gt : CompilerOptions → Option Nat → Bool → Nat) (a : EmitArgs)
    (dk : Option ModuleKind) (pre post : List (ICachedEmitModuleKind × CompilerOptions))
    (k : ICachedEmitModuleKind) (bad : CompilerOptions)
    (hpre : ∀ p ∈ pre, outDirFalsy p.2 = false) (hbad : outDirFalsy bad = true)
    (acc : Bool) (dres : Option EmitResult) :
    emitLoop (fun x => Except.ok (f x)) gt a dk (pre ++ (k, bad) :: post) acc dres =
      (Except.error EmitError.outDirNotAssigned,
       pre.map (fun p => variantArgs gt a p.2)) := by
  induction pre generalizing acc dres with
  | nil => simp [emitLoop, hbad]
  | cons p rest ih =>
    obtain ⟨k', o'⟩ := p
    have ho : outDirFalsy o' = false := hpre (k', o') (by simp)
    have hrest : ∀ q ∈ rest, outDirFalsy q.2 = false := fun q hq => hpre q (by simp [hq])
    simp [emitLoop, ho, ih hrest]

theorem installLoop_ok_of_le_one (tsOptions : CompilerOptions) (ubc : Bool)
    (kinds : List ICachedEmitModuleKind) (h1 : countPrimary kinds ≤ 1) :
    ∃ dk, installLoop tsOptions ubc kinds false none =
      Except.ok (dk, derivedPairs tsOptions ubc kinds) := by
  rcases Nat.le_one_iff_eq_zero_or_eq_one.mp h1 with h0 | hone
  · exact ⟨none, installLoop_no_primary tsOptions ubc kinds h0 false none⟩
  · obtain ⟨kp, hmem, hkp⟩ := exists_primary_of_countPrimary_one kinds hone
    obtain ⟨pre, post, heq, hp0, hp1⟩ :=
      exists_decomp_of_countPrimary_one kinds kp hone hmem hkp
    subst heq
    exact ⟨some kp.moduleKind,
      installLoop_one_primary tsOptions ubc pre kp post hkp hp0 hp1 none⟩

theorem install_ok_of_le_one (w : World) (ts : Nat) (tsOptions : CompilerOptions)
    (ubc : Bool) (kinds : List ICachedEmitModuleKind)
    (h0 : w.patchedTs = none) (h1 : countPrimary kinds ≤ 1) :
    install w ts tsOptions ubc kinds =
      (none,
       { emitFilesOf := fun h => if h = ts then w.nextRef else w.emitFilesOf h,
         patchedTs := some ts, baseEmitFiles := some (w.emitFilesOf ts),
         nextRef := w.nextRef + 1 }) := by
  obtain ⟨dk, hloop⟩ := installLoop_ok_of_le_one tsOptions ubc kinds h1
  simp [install, h0, hloop]

theorem installLoop_ok_pairs (tsOptions : CompilerOptions) (ubc : Bool)
    (kinds : List ICachedEmitModuleKind) (dk : Option ModuleKind)
    (pairs : List (ICachedEmitModuleKind × CompilerOptions))
    (h : installLoop tsOptions ubc kinds false none = Except.ok (dk, pairs)) :
    pairs = derivedPairs tsOptions ubc kinds := by
  by_cases h2 : 2 ≤ countPrimary kinds
  · rw [installLoop_two_primary tsOptions ubc kinds h2] at h
    cases h
  · obtain ⟨dk', hloop⟩ := installLoop_ok_of_le_one tsOptions ubc kinds (by omega)
    rw [hloop] at h
    injection h with h'
    injection h' with ha hb
    exact hb.symm

/-- C3: for every wrapped emit call in which the build-info-only flag or the
declarations-only flag is set, the original entry point is invoked exactly
once, with all seven arguments forwarded unchanged (in particular the
ambient host), and its result — success or exception — is returned
unmodified; the per-variant fan-out never runs and the changed-files sink is
untouched. -/
theorem spec_c3 (base : EmitArgs → Except EmitError EmitResult)
    (gt : CompilerOptions → Option Nat → Bool → Nat)
    (pairs : List (ICachedEmitModuleKind × CompilerOptions))
    (dk : Option ModuleKind) (sink : Option (List Nat)) (a : EmitArgs)
    (h : (a.onlyBuildInfo || a.emitOnlyDtsFiles) = true) :
    patchedEmitFiles base gt pairs dk sink a = (base a, sink, [a]) := by
  simp [patchedEmitFiles, h]

/-- Witness for C3 at a concrete build-info-only call. -/
theorem spec_c3_witness :
    (aPass.onlyBuildInfo || aPass.emitOnlyDtsFiles) = true ∧
    patchedEmitFiles (fun x => Except.ok (f0 x)) gt0
        (derivedPairs baseOptions false [primaryKind, secondaryKind]) (some 1)
        (some []) aPass =
      (Except.ok (f0 aPass), some [], [aPass]) :=
  ⟨by decide,
   spec_c3 (fun x => Except.ok (f0 x)) gt0
     (derivedPairs baseOptions false [primaryKind, secondaryKind]) (some 1)
     (some []) aPass (by decide)⟩

/-- C7: calling `install` while a patch is already active fails with the
already-installed error and leaves the state — the patched entry points, the
saved original entry point and the active handle — exactly unchanged. -/
theorem spec_c7 (w : World) (ts ts' : Nat) (tsOptions : CompilerOptions)
    (ubc : Bool) (kinds : List ICachedEmitModuleKind)
    (h : w.patchedTs = some ts') :
    install w ts tsOptions ubc kinds = (some PatchError.alreadyInstalled, w) := by
  simp [install, h]

/-- Witness for C7: a second `install` right after a successful one. -/
theorem spec_c7_witness :
    w1.patchedTs = some 0 ∧
    install w1 5 baseOptions false [primaryKind] =
      (some PatchError.alreadyInstalled, w1) :=
  ⟨rfl, spec_c7 w1 5 0 baseOptions false [primaryKind] rfl⟩

/-- C9: `uninstall` fails with the no-active-patch error when no patch is
installed, and with the wrong-object error when called with a different
handle than the installed one; in both failure cases the state is exactly
unchanged. -/
theorem spec_c9 (w : World) (ts p : Nat) :
    (w.patchedTs = none → uninstall w ts = (some PatchError.notInstalled, w)) ∧
    (w.patchedTs = some p → ts ≠ p → uninstall w ts = (some PatchError.wrongObject, w)) := by
  constructor
  · intro h
    simp [uninstall, h]
  · intro h hne
    simp [uninstall, h, hne]

/-- Witness for C9: uninstalling the fresh world, and uninstalling the
installed world with a mismatched handle. -/
theorem spec_c9_witness :
    uninstall w0 3 = (some PatchError.notInstalled, w0) ∧
    uninstall w1 5 = (some PatchError.wrongObject, w1) :=
  ⟨(spec_c9 w0 3 0).1 rfl, (spec_c9 w1 5 0).2 rfl (by decide)⟩

/-- Counterexample to C2: a variant list with zero primary variants is not
rejected — `install` succeeds on it and replaces the handle's emit entry
point (reference 0 becomes the fresh wrapper reference 1). -/
theorem spec_c2_counterexample :
    countPrimary [secondaryKind] = 0 ∧
    (install w0 0 baseOptions false [secondaryKind]).1 = none ∧
    (install w0 0 baseOptions false [secondaryKind]).2.emitFilesOf 0 = 1 ∧
    w0.emitFilesOf 0 = 0 := by
  refine ⟨by decide, ?_, ?_, rfl⟩ <;> rfl

/-- C2 as amended: only a list with at least two primary variants makes
`install` fail (with the multiple-primary error), and that failure leaves
`ts.emitFiles` unreplaced; a list with zero primaries (or one) is accepted.
-/
theorem spec_c2_amended (w : World) (ts : Nat) (tsOptions : CompilerOptions)
    (ubc : Bool) (kinds : List ICachedEmitModuleKind) (h0 : w.patchedTs = none) :
    (2 ≤ countPrimary kinds →
      (install w ts tsOptions ubc kinds).1 = some PatchError.multiplePrimary ∧
      (install w ts tsOptions ubc kinds).2.emitFilesOf = w.emitFilesOf) ∧
    (countPrimary kinds ≤ 1 → (install w ts tsOptions ubc kinds).1 = none) := by
  constructor
  · intro h2
    have hloop := installLoop_two_primary tsOptions ubc kinds h2 none
    constructor
    · simp [install, h0, hloop]
    · simp [install, h0, hloop]
  · intro h1
    rw [install_ok_of_le_one w ts tsOptions ubc kinds h0 h1]

/-- Witness for C2 as amended: a two-primary list fails without touching the
entry point; a zero-primary list is accepted. -/
theorem spec_c2_amended_witness :
    w0.patchedTs = none ∧
    2 ≤ countPrimary [primaryKind, primaryKind] ∧
    (install w0 0 baseOptions false [primaryKind, primaryKind]).1 =
      some PatchError.multiplePrimary ∧
    (install w0 0 baseOptions false [primaryKind, primaryKind]).2.emitFilesOf =
      w0.emitFilesOf ∧
    (install w0 0 baseOptions false [secondaryKind, secondaryKind]).1 = none :=
  ⟨rfl, by decide,
   ((spec_c2_amended w0 0 baseOptions false [primaryKind, primaryKind] rfl).1 (by decide)).1,
   ((spec_c2_amended w0 0 baseOptions false [primaryKind, primaryKind] rfl).1 (by decide)).2,
   (spec_c2_amended w0 0 baseOptions false [secondaryKind, secondaryKind] rfl).2 (by decide)⟩

/-- Counterexample to C5: an `install` that fails on a two-primary list is
not atomic — afterward `isInstalled` is true and the saved original entry
point slot is occupied, even though the call threw. -/
theorem spec_c5_counterexample :
    (install w0 0 baseOptions false [primaryKind, primaryKind]).1 =
      some PatchError.multiplePrimary ∧
    isInstalled (install w0 0 baseOptions false [primaryKind, primaryKind]).2 = true ∧
    (install w0 0 baseOptions false [primaryKind, primaryKind]).2.baseEmitFiles = some 0 := by
  refine ⟨?_, ?_, ?_⟩ <;> rfl

theorem installLoop_error_eq (tsOptions : CompilerOptions) (ubc : Bool)
    (kinds : List ICachedEmitModuleKind) (fp : Bool) (dk : Option ModuleKind)
    (e : PatchError) (h : installLoop tsOptions ubc kinds fp dk = Except.error e) :
    e = PatchError.multiplePrimary := by
  induction kinds generalizing fp dk e with
  | nil => simp [installLoop] at h
  | cons k rest ih =>
    by_cases hk : k.isPrimary
    · by_cases hfp : fp
      · simp [installLoop, hk, hfp] at h
        exact h.symm
      · cases hrec : installLoop tsOptions ubc rest true (some k.moduleKind) with
        | error e' =>
          have he : e' = e := by
            simp [installLoop, hk, hfp, hrec] at h
            exact h
          rw [← he]
          exact ih true (some k.moduleKind) e' hrec
        | ok v => simp [installLoop, hk, hfp, hrec] at h
    · cases hrec : installLoop tsOptions ubc rest fp dk with
      | error e' =>
        have he : e' = e := by
          simp [installLoop, hk, hrec] at h
          exact h
        rw [← he]
        exact ih fp dk e' hrec
      | ok v => simp [installLoop, hk, hrec] at h

/-- C5 as amended: `uninstall` failures and the already-installed `install`
failure leave the state exactly unchanged; an `install` that fails during
variant validation (multiple primaries) leaves `ts.emitFiles` unchanged but
has already assigned the active-handle and saved-entry-point statics, so
`isInstalled` is true afterward. -/
theorem spec_c5_amended (w : World) (ts : Nat) (tsOptions : CompilerOptions)
    (ubc : Bool) (kinds : List ICachedEmitModuleKind) :
    (∀ e, (uninstall w ts).1 = some e → (uninstall w ts).2 = w) ∧
    ((install w ts tsOptions ubc kinds).1 = some PatchError.alreadyInstalled →
      (install w ts tsOptions ubc kinds).2 = w) ∧
    (∀ e, (install w ts tsOptions ubc kinds).1 = some e →
      e ≠ PatchError.alreadyInstalled →
      (install w ts tsOptions ubc kinds).2.emitFilesOf = w.emitFilesOf ∧
      (install w ts tsOptions ubc kinds).2.patchedTs = some ts ∧
      (install w ts tsOptions ubc kinds).2.baseEmitFiles = some (w.emitFilesOf ts)) := by
  refine ⟨?_, ?_, ?_⟩
  · intro e he
    cases hp : w.patchedTs with
    | none => simp [uninstall, hp]
    | some p =>
      by_cases hts : ts = p
      · exfalso
        cases hb : w.baseEmitFiles with
        | none => simp [uninstall, hp, hts, hb] at he
        | some b => simp [uninstall, hp, hts, hb] at he
      · simp [uninstall, hp, hts]
  · intro he
    cases hp : w.patchedTs with
    | none =>
      exfalso
      cases hloop : installLoop tsOptions ubc kinds false none with
      | error e' =>
        have he' : e' = PatchError.alreadyInstalled := by
          simp [install, hp, hloop] at he
          exact he
        have hmp := installLoop_error_eq tsOptions ubc kinds false none e' hloop
        rw [hmp] at he'
        exact absurd he' (by decide)
      | ok v => simp [install, hp, hloop] at he
    | some p => simp [install, hp]
  · intro e he hne
    cases hp : w.patchedTs with
    | none =>
      cases hloop : installLoop tsOptions ubc kinds false none with
      | error e' => simp [install, hp, hloop]
      | ok v => simp [install, hp, hloop] at he
    | some p =>
      exfalso
      simp [install, hp] at he
      exact hne he.symm

/-- Witness for C5 as amended: the failing two-primary install at a concrete
world, and a failing uninstall that leaves the world unchanged. -/
theorem spec_c5_amended_witness :
    (install w0 0 baseOptions false [primaryKind, primaryKind]).1 =
      some PatchError.multiplePrimary ∧
    (install w0 0 baseOptions false [primaryKind, primaryKind]).2.emitFilesOf =
      w0.emitFilesOf ∧
    (install w0 0 baseOptions false [primaryKind, primaryKind]).2.patchedTs = some 0 ∧
    (install w0 0 baseOptions false [primaryKind, primaryKind]).2.baseEmitFiles =
      some (w0.emitFilesOf 0) ∧
    (uninstall w0 3).2 = w0 := by
  have H := spec_c5_amended w0 0 baseOptions false [primaryKind, primaryKind]
  have H3 := H.2.2 PatchError.multiplePrimary rfl (by decide)
  exact ⟨rfl, H3.1, H3.2.1, H3.2.2,
    (spec_c5_amended w0 3 baseOptions false []).1 PatchError.notInstalled rfl⟩

/-- C6: for every variant list with exactly one primary, `install` followed
immediately by `uninstall` on the same handle succeeds and restores the
exact original emit entry point to the handle (reference equality), and
`isInstalled` is false afterward. -/
theorem spec_c6 (w : World) (ts : Nat) (tsOptions : CompilerOptions) (ubc : Bool)
    (kinds : List ICachedEmitModuleKind)
    (h0 : w.patchedTs = none) (h1 : countPrimary kinds = 1) :
    (install w ts tsOptions ubc kinds).1 = none ∧
    (uninstall (install w ts tsOptions ubc kinds).2 ts).1 = none ∧
    (uninstall (install w ts tsOptions ubc kinds).2 ts).2.emitFilesOf ts =
      w.emitFilesOf ts ∧
    isInstalled (uninstall (install w ts tsOptions ubc kinds).2 ts).2 = false := by
  have hinst := install_ok_of_le_one w ts tsOptions ubc kinds h0 (by omega)
  rw [hinst]
  refine ⟨rfl, ?_, ?_, ?_⟩ <;> simp [uninstall, isInstalled]

/-- Witness for C6 at a concrete one-primary variant list. -/
theorem spec_c6_witness :
    countPrimary [primaryKind, secondaryKind] = 1 ∧
    (install w0 0 baseOptions false [primaryKind, secondaryKind]).1 = none ∧
    (uninstall (install w0 0 baseOptions false [primaryKind, secondaryKind]).2 0).1 = none ∧
    (uninstall (install w0 0 baseOptions false [primaryKind, secondaryKind]).2 0).2.emitFilesOf 0 =
      w0.emitFilesOf 0 ∧
    isInstalled (uninstall (install w0 0 baseOptions false [primaryKind, secondaryKind]).2 0).2 =
      false :=
  ⟨by decide, spec_c6 w0 0 baseOptions false [primaryKind, secondaryKind] rfl (by decide)⟩

/-- C4: for every variant list accepted by `install`, the derivation loop
pairs every variant with the base tsconfig options in which `outDir` is
replaced by the variant's effective output path (cache path when the
build-cache flag is set, final path otherwise); the primary variant's
options differ from the base in no other field, and every non-primary
variant additionally has `module` set to its module kind and `declaration`
and `declarationMap` set to false. -/
theorem spec_c4 (w : World) (ts : Nat) (tsOptions : CompilerOptions) (ubc : Bool)
    (kinds : List ICachedEmitModuleKind) (dk : Option ModuleKind)
    (pairs : List (ICachedEmitModuleKind × CompilerOptions))
    (haccept : (install w ts tsOptions ubc kinds).1 = none)
    (hload : installLoop tsOptions ubc kinds false none = Except.ok (dk, pairs)) :
    pairs.map Prod.fst = kinds ∧
    ∀ p ∈ pairs,
      p.2.outDir = some (effectiveOutDir ubc p.1) ∧
      p.2.residual = tsOptions.residual ∧
      (p.1.isPrimary = true →
        p.2.module = tsOptions.module ∧
        p.2.declaration = tsOptions.declaration ∧
        p.2.declarationMap = tsOptions.declarationMap) ∧
      (p.1.isPrimary = false →
        p.2.module = some p.1.moduleKind ∧
        p.2.declaration = some false ∧
        p.2.declarationMap = some false) := by
  have hpairs := installLoop_ok_pairs tsOptions ubc kinds dk pairs hload
  subst hpairs
  constructor
  · have hid : (Prod.fst ∘ fun k => (k, deriveOptions tsOptions ubc k)) = id := rfl
    simp [derivedPairs, List.map_map, hid]
  · intro p hp
    obtain ⟨k, hk, hpk⟩ := List.mem_map.mp hp
    rw [← hpk]
    cases hkp : k.isPrimary with
    | true => simp [deriveOptions, hkp]
    | false => simp [deriveOptions, hkp]

/-- Witness for C4 at a concrete accepted variant list. -/
theorem spec_c4_witness :
    (install w0 0 baseOptions false [primaryKind, secondaryKind]).1 = none ∧
    (derivedPairs baseOptions false [primaryKind, secondaryKind]).map Prod.fst =
      [primaryKind, secondaryKind] ∧
    (deriveOptions baseOptions false secondaryKind).module = some 2 ∧
    (deriveOptions baseOptions false secondaryKind).declaration = some false ∧
    (deriveOptions baseOptions false primaryKind).declaration = baseOptions.declaration := by
  have H := spec_c4 w0 0 baseOptions false [primaryKind, secondaryKind] (some 1)
    (derivedPairs baseOptions false [primaryKind, secondaryKind]) rfl rfl
  have Hs := H.2 (secondaryKind, deriveOptions baseOptions false secondaryKind) (by decide)
  have Hp := H.2 (primaryKind, deriveOptions baseOptions false primaryKind) (by decide)
  exact ⟨rfl, H.1, (Hs.2.2.2 rfl).1, (Hs.2.2.2 rfl).2.1, (Hp.2.2.1 rfl).2.1⟩

/-- Counterexample to C8: a variant list with a duplicated module convention
and an empty effective output path is accepted by `install` — no
configuration error is raised there. -/
theorem spec_c8_counterexample :
    primaryKind.moduleKind = emptyPathKind.moduleKind ∧
    effectiveOutDir false emptyPathKind = "" ∧
    (install w0 0 baseOptions false dupAndEmpty).1 = none := by
  exact ⟨rfl, rfl, rfl⟩

/-- C8 as amended: `install` performs no duplicate-convention and no
output-path validation (any list with at most one primary is accepted,
duplicates and empty paths included); an empty/unset effective output
directory is detected only during emission — when the fan-out reaches a
variant whose derived options have a falsy `outDir`, the wrapped emit throws
the internal outDir error before invoking the original entry point for that
variant, the earlier variants having already been emitted. -/
theorem spec_c8_amended (w : World) (ts : Nat) (tsOptions : CompilerOptions)
    (ubc : Bool) (kinds : List ICachedEmitModuleKind)
    (f : EmitArgs → EmitResult) (gt : CompilerOptions → Option Nat → Bool → Nat)
    (a : EmitArgs) (dk : Option ModuleKind) (sink : Option (List Nat))
    (pre post : List (ICachedEmitModuleKind × CompilerOptions))
    (k : ICachedEmitModuleKind) (bad : CompilerOptions)
    (h0 : w.patchedTs = none) (h1 : countPrimary kinds ≤ 1)
    (hnb : a.onlyBuildInfo = false) (hnd : a.emitOnlyDtsFiles = false)
    (hpre : ∀ p ∈ pre, outDirFalsy p.2 = false) (hbad : outDirFalsy bad = true) :
    (install w ts tsOptions ubc kinds).1 = none ∧
    patchedEmitFiles (fun x => Except.ok (f x)) gt (pre ++ (k, bad) :: post) dk sink a =
      (Except.error EmitError.outDirNotAssigned, sinkAfter a.targetSourceFile sink,
       pre.map (fun p => variantArgs gt a p.2)) := by
  constructor
  · rw [install_ok_of_le_one w ts tsOptions ubc kinds h0 h1]
  · have hloop := emitLoop_outDir_err f gt a dk pre post k bad hpre hbad false none
    simp [patchedEmitFiles, hnb, hnd, hloop]

/-- Witness for C8 as amended: the fan-out over the duplicate-and-empty list
emits the primary variant and then throws the internal outDir error at the
empty-path variant. -/
theorem spec_c8_amended_witness :
    countPrimary dupAndEmpty ≤ 1 ∧
    outDirFalsy (deriveOptions baseOptions false emptyPathKind) = true ∧
    (install w0 0 baseOptions false dupAndEmpty).1 = none ∧
    patchedEmitFiles (fun x => Except.ok (f0 x)) gt0
        [(primaryKind, deriveOptions baseOptions false primaryKind),
         (emptyPathKind, deriveOptions baseOptions false emptyPathKind)]
        (some 1) (some []) a0 =
      (Except.error EmitError.outDirNotAssigned, sinkAfter a0.targetSourceFile (some []),
       [variantArgs gt0 a0 (deriveOptions baseOptions false primaryKind)]) := by
  have H := spec_c8_amended w0 0 baseOptions false dupAndEmpty f0 gt0 a0 (some 1)
    (some []) [(primaryKind, deriveOptions baseOptions false primaryKind)] []
    emptyPathKind (deriveOptions baseOptions false emptyPathKind)
    rfl (by decide) rfl rfl (by decide) (by decide)
  exact ⟨by decide, by decide, H.1, H.2⟩

/-- C10: for every normal wrapped emit call that has both a target source
file and a changed-files sink, the target is added to the sink (this happens
before any per-variant invocation, so it holds whatever the base entry point
does — including throwing partway through the fan-out); the sink has set
semantics, so the file ends up present exactly once and re-adding it is a
no-op. -/
theorem spec_c10 (base : EmitArgs → Except EmitError EmitResult)
    (gt : CompilerOptions → Option Nat → Bool → Nat)
    (pairs : List (ICachedEmitModuleKind × CompilerOptions))
    (dk : Option ModuleKind) (s : List Nat) (fileId : Nat) (a : EmitArgs)
    (hnb : a.onlyBuildInfo = false) (hnd : a.emitOnlyDtsFiles = false)
    (ht : a.targetSourceFile = some fileId) :
    (patchedEmitFiles base gt pairs dk (some s) a).2.1 = some (setAdd s fileId) ∧
    fileId ∈ setAdd s fileId ∧
    (fileId ∉ s → (setAdd s fileId).count fileId = 1) ∧
    setAdd (setAdd s fileId) fileId = setAdd s fileId := by
  have hmem : fileId ∈ setAdd s fileId := by
    by_cases h : fileId ∈ s
    · simp [setAdd, h]
    · simp [setAdd, h]
  refine ⟨?_, hmem, ?_, ?_⟩
  · rcases hE : emitLoop base gt a dk pairs false none with ⟨res, tr⟩
    cases res with
    | error e => simp [patchedEmitFiles, hnb, hnd, hE, sinkAfter, ht]
    | ok v =>
      obtain ⟨es, dr⟩ := v
      simp [patchedEmitFiles, hnb, hnd, hE, sinkAfter, ht]
  · intro h
    have h0 : s.count fileId = 0 := List.count_eq_zero.mpr h
    simp [setAdd, h, List.count_append, h0]
  · by_cases h : fileId ∈ s
    · simp [setAdd, h]
    · simp [setAdd, h]

/-- C1: for every normal (non-pass-through) wrapped emit call over a valid
variant list with exactly one primary (pairwise-distinct module conventions,
nonempty effective output paths) and a base entry point that succeeds on
every variant, the returned result has `emitSkipped` equal to the logical OR
of the per-variant results' `emitSkipped` flags, and every other field equal
to the corresponding field of the result produced for the variant whose
module convention equals the primary variant's convention. -/
theorem spec_c1 (f : EmitArgs → EmitResult)
    (gt : CompilerOptions → Option Nat → Bool → Nat)
    (tsOptions : CompilerOptions) (ubc : Bool)
    (kinds : List ICachedEmitModuleKind) (kp : ICachedEmitModuleKind)
    (dk : Option ModuleKind) (pairs : List (ICachedEmitModuleKind × CompilerOptions))
    (sink : Option (List Nat)) (a : EmitArgs)
    (h1 : countPrimary kinds = 1) (hmem : kp ∈ kinds) (hkp : kp.isPrimary = true)
    (hdist : kinds.Pairwise (fun x y => x.moduleKind ≠ y.moduleKind))
    (hpaths : ∀ k ∈ kinds, effectiveOutDir ubc k ≠ "")
    (hload : installLoop tsOptions ubc kinds false none = Except.ok (dk, pairs))
    (hnb : a.onlyBuildInfo = false) (hnd : a.emitOnlyDtsFiles = false) :
    (patchedEmitFiles (fun x => Except.ok (f x)) gt pairs dk sink a).1 =
      Except.ok
        { f (variantArgs gt a (deriveOptions tsOptions ubc kp)) with
          emitSkipped :=
            (kinds.map (fun k =>
              (f (variantArgs gt a (deriveOptions tsOptions ubc k))).emitSkipped)).any id } := by
  obtain ⟨pre, post, heq, hp0, hp1⟩ :=
    exists_decomp_of_countPrimary_one kinds kp h1 hmem hkp
  subst heq
  have hloop := installLoop_one_primary tsOptions ubc pre kp post hkp hp0 hp1 none
  rw [hload] at hloop
  injection hloop with hloop'
  injection hloop' with hdk hpairs
  subst hdk
  subst hpairs
  have hout : ∀ p ∈ derivedPairs tsOptions ubc (pre ++ kp :: post),
      outDirFalsy p.2 = false := by
    intro p hp
    obtain ⟨k, hk, hpk⟩ := List.mem_map.mp hp
    rw [← hpk, outDirFalsy_deriveOptions]
    simp only [beq_eq_false_iff_ne, ne_eq]
    exact hpaths k hk
  have hloopT := emitLoop_total f gt a (some kp.moduleKind)
    (derivedPairs tsOptions ubc (pre ++ kp :: post)) hout false none
  have hsplit : derivedPairs tsOptions ubc (pre ++ kp :: post) =
      derivedPairs tsOptions ubc pre ++
        (kp, deriveOptions tsOptions ubc kp) :: derivedPairs tsOptions ubc post := by
    simp [derivedPairs]
  have hpostne : ∀ p ∈ derivedPairs tsOptions ubc post,
      some p.1.moduleKind ≠ some kp.moduleKind := by
    intro p hp
    obtain ⟨k, hk, hpk⟩ := List.mem_map.mp hp
    rw [← hpk]
    have hmid := (List.pairwise_append.mp hdist).2.1
    have hkpost := (List.pairwise_cons.mp hmid).1 k hk
    simp only [Option.some.injEq, ne_eq]
    exact fun hh => hkpost hh.symm
  have hlast : lastRes f gt a (some kp.moduleKind)
      (derivedPairs tsOptions ubc (pre ++ kp :: post)) none =
      some (f (variantArgs gt a (deriveOptions tsOptions ubc kp))) := by
    rw [hsplit]
    exact lastRes_unique_match f gt a kp (deriveOptions tsOptions ubc kp)
      (derivedPairs tsOptions ubc pre) (derivedPairs tsOptions ubc post) hpostne none
  have hcond : (a.onlyBuildInfo || a.emitOnlyDtsFiles) = false := by
    rw [hnb, hnd]
    rfl
  simp only [patchedEmitFiles, hcond, Bool.false_eq_true, if_false, hloopT, hlast,
    Bool.false_or]
  simp [derivedPairs, List.map_map, Function.comp]
  rfl

/-- Witness for C1: the concrete two-variant fan-out, whose secondary flavor
reports `emitSkipped`, aggregated onto the primary flavor's result. -/
theorem spec_c1_witness :
    countPrimary [primaryKind, secondaryKind] = 1 ∧
    (patchedEmitFiles (fun x => Except.ok (f0 x)) gt0
        (derivedPairs baseOptions false [primaryKind, secondaryKind]) (some 1)
        (some []) a0).1 =
      Except.ok
        { f0 (variantArgs gt0 a0 (deriveOptions baseOptions false primaryKind)) with
          emitSkipped :=
            ([primaryKind, secondaryKind].map (fun k =>
              (f0 (variantArgs gt0 a0 (deriveOptions baseOptions false k))).emitSkipped)).any
              id } :=
  ⟨by decide,
   spec_c1 f0 gt0 baseOptions false [primaryKind, secondaryKind] primaryKind (some 1)
     (derivedPairs baseOptions false [primaryKind, secondaryKind]) (some []) a0
     (by decide) (by decide) rfl (by decide) (by decide) rfl rfl rfl⟩

/-- Witness for C10: even with a base entry point that always throws, the
concrete call records target file 10 in the empty sink, present exactly
once, and re-adding it is a no-op. -/
theorem spec_c10_witness :
    (patchedEmitFiles baseThrow gt0
        (derivedPairs baseOptions false [primaryKind, secondaryKind]) (some 1)
        (some []) a0).2.1 = some (setAdd [] 10) ∧
    10 ∈ setAdd [] 10 ∧
    (10 ∉ ([] : List Nat) → (setAdd [] 10).count 10 = 1) ∧
    setAdd (setAdd [] 10) 10 = setAdd [] 10 :=
  spec_c10 baseThrow gt0
    (derivedPairs baseOptions false [primaryKind, secondaryKind]) (some 1) [] 10 a0
    rfl rfl rfl
